import Mathlib

/-!
# ChatVerse — verification of the conversation-state management layer

Shallow embedding of the ChatVerse chat client's session/conversation state
management, translated from the TypeScript source.  The repository contains two
divergent `App` variants:

* **variant A** (`src/unnamed/part_000`, first document): per-user history,
  `/imagine` command routing, streamed chat turns, effect-based history
  upsert and persistence, `crypto.randomUUID()` message ids;
* **variant B** (`src/unnamed/part_001`): explicit `saveChatHistory` with
  quota-eviction, non-streamed chat turns, `Date.now()`-based message ids,
  a fixed fallback apology string on errors, and no `isLoading` guard inside
  `handleSendMessage` (the guard lives in the `ChatInput` submit handler).

JavaScript strings are modelled as `List Char`; the JS string operations used
by the code (`trim`, `toLowerCase`, `substring`, `startsWith`, `slice`) are
modelled on that representation.  `localStorage` is modelled as an optional
stored value per history key, with write success decided by an environment
capacity oracle (`StorageModel.fits`), and `JSON.parse` failure modelled by a
`corrupt` stored value.
-/

set_option maxHeartbeats 1000000

/-- JavaScript string, modelled as its list of characters. -/
abbrev Str := List Char

/-- Embed a Lean string literal as a JS string value. -/
def strOf (s : String) : Str := s.data

/-- Whitespace test used by the model of `String.prototype.trim`
(the whitespace characters that can realistically occur in chat input). -/
def isWS (c : Char) : Bool :=
  c == ' ' || c == '\t' || c == '\n' || c == '\r' || c == '\x0b' || c == '\x0c'

/-- Model of `String.prototype.trim`: drop leading and trailing whitespace. -/
def jsTrim (s : Str) : Str :=
  ((s.dropWhile isWS).reverse.dropWhile isWS).reverse

/-- Per-character model of `String.prototype.toLowerCase` (ASCII range; the
source only ever compares the result against the ASCII command word). -/
def jsLowerChar (c : Char) : Char :=
  if 65 ≤ c.toNat ∧ c.toNat ≤ 90 then Char.ofNat (c.toNat + 32) else c

/-- Model of `String.prototype.toLowerCase`. -/
def jsToLowerCase (s : Str) : Str := s.map jsLowerChar

/-- Model of `String.prototype.startsWith`. -/
def strStartsWith (p s : Str) : Bool := s.take p.length == p

/-- Model of `Number.prototype.toString` on a `Date.now()` value. -/
def natToStr (n : Nat) : Str := (Nat.repr n).data

/-- Message role (`src/types.ts`). -/
inductive Role where
  | user
  | model
deriving DecidableEq, Repr

/-- Inline image payload (`src/types.ts`). -/
structure Image where
  data : Str
  mimeType : Str
deriving DecidableEq, Repr

/-- `ChatMessage` (`src/types.ts`). -/
structure ChatMessage where
  id : Str
  role : Role
  content : Str
  image : Option Image := none
deriving DecidableEq, Repr

/-- `ChatHistoryItem` (`src/types.ts`). -/
structure ChatHistoryItem where
  id : Str
  title : Str
  messages : List ChatMessage
deriving DecidableEq, Repr

/-- A value persisted under a `chatHistory_<user>` key: either a parseable
serialization of a history collection, or a corrupt entry on which
`JSON.parse` throws. -/
inductive Stored where
  | good (h : List ChatHistoryItem)
  | corrupt
deriving DecidableEq, Repr

/-- Environment oracle deciding whether a `localStorage.setItem` of a given
collection succeeds or throws a quota error. -/
structure StorageModel where
  fits : List ChatHistoryItem → Bool

/-- Ids of a message list. -/
def idsOf (msgs : List ChatMessage) : List Str := msgs.map (·.id)

/-- Whether some message in the list carries the given id. -/
def hasId (i : Str) (msgs : List ChatMessage) : Bool :=
  msgs.any (fun m => m.id == i)

/-- The `setMessages(prev => prev.map(msg => msg.id === i ? {...msg, content: t} : msg))`
updater used by both streaming and error paths of variant A. -/
def setContent (i : Str) (t : Str) (msgs : List ChatMessage) : List ChatMessage :=
  msgs.map (fun m => if m.id == i then { m with content := t } else m)

/-- Content of the first message carrying the given id, if any. -/
def contentOf (i : Str) (msgs : List ChatMessage) : Option Str :=
  (msgs.find? (fun m => m.id == i)).map (·.content)

/-- Variant A title derivation (`part_000` lines 117–121): first 30 characters
of the first user message's content, ellipsized when longer than 30,
else `"New Chat"`. -/
def deriveTitle (msgs : List ChatMessage) : Str :=
  match msgs.find? (fun m => m.role == Role.user) with
  | some m => m.content.take 30 ++ (if 30 < m.content.length then strOf "..." else [])
  | none => strOf "New Chat"

section VariantA

namespace VA

/-- Variant A upsert of one session into the history collection
(`part_000` lines 108–122): replace the messages of the first session with a
matching id, keeping its title; else append a new record with a derived title. -/
def upsertSession (cid : Str) (msgs : List ChatMessage) :
    List ChatHistoryItem → List ChatHistoryItem
  | [] => [⟨cid, deriveTitle msgs, msgs⟩]
  | c :: cs =>
    if c.id == cid then ⟨c.id, c.title, msgs⟩ :: cs
    else c :: upsertSession cid msgs cs

/-- The variant A history effect (`part_000` lines 106–124): runs after every
`messages` update; does nothing without a current chat id or with an empty
message list. -/
def historyEffect (cid : Option Str) (msgs : List ChatMessage)
    (hist : List ChatHistoryItem) : List ChatHistoryItem :=
  match cid with
  | none => hist
  | some cid => if msgs.isEmpty then hist else upsertSession cid msgs hist

/-- Fold the history effect over a trace of `messages` states, in order. -/
def runHistoryEffect (cid : Option Str) (trace : List (List ChatMessage))
    (hist : List ChatHistoryItem) : List ChatHistoryItem :=
  trace.foldl (fun h m => historyEffect cid m h) hist

/-- The variant A persistence effect (`part_000` lines 63–74): store the
non-empty collection under the user's key (best effort: a quota error leaves
the previous stored value), remove the key when the collection is empty. -/
def persistEffect (sm : StorageModel) (hist : List ChatHistoryItem)
    (st : Option Stored) : Option Stored :=
  if hist.isEmpty then none
  else if sm.fits hist then some (Stored.good hist) else st

/-- Stored messages of the session with the given id. -/
def sessionMessages (cid : Str) (hist : List ChatHistoryItem) :
    Option (List ChatMessage) :=
  (hist.find? (fun c => c.id == cid)).map (·.messages)

/-- Variant A history load (`part_000` lines 42–53): parse the stored entry;
on parse failure set the in-memory collection to empty and remove the corrupt
entry. Returns (in-memory collection, stored entry after the load). -/
def loadHistory (entry : Option Stored) :
    List ChatHistoryItem × Option Stored :=
  match entry with
  | some (Stored.good h) => (h, entry)
  | some Stored.corrupt => ([], none)
  | none => ([], none)

/-- Application state of variant A relevant to a turn. `chatReady` models
`chat !== null`. -/
structure AppState where
  messages : List ChatMessage
  isLoading : Bool
  currentChatId : Option Str
  chatReady : Bool
deriving DecidableEq, Repr

/-- Outcome of the image-generation gateway call (`ai.models.generateContent`
with image modality): an inline-image part was found, no inline-image part was
present (the code then throws a fixed error), or the call threw. -/
inductive ImageOutcome where
  | found (img : Image)
  | missing
  | thrown (msg : Str)
deriving DecidableEq, Repr

/-- Outcome of the streamed chat gateway call (`chat.sendMessageStream`):
either a full sequence of text chunks, or a throw. -/
inductive ChatOutcome where
  | streamed (chunks : List Str)
  | thrown (msg : Str)
deriving DecidableEq, Repr

/-- Result of a turn: the final application state together with the trace of
every `messages` value set during the turn, in order. -/
structure TurnResult where
  state : AppState
  trace : List (List ChatMessage)
deriving DecidableEq, Repr

/-- One streaming step per chunk (`part_000` lines 260–268): the chunk text is
appended to the accumulator and the accumulated text replaces the placeholder
message's content; the list collects the `messages` value after each chunk. -/
def streamSteps (i : Str) (acc : Str) (msgs : List ChatMessage) :
    List Str → List (List ChatMessage)
  | [] => []
  | c :: cs =>
    let acc2 := acc ++ c
    let msgs2 := setContent i acc2 msgs
    msgs2 :: streamSteps i acc2 msgs2 cs

/-- `handleImageGeneration` (`part_000` lines 126–205). `newChatId` models the
`crypto.randomUUID()` used when no chat id is current; `userMsgId` and
`modelMsgId` model the two message-id UUIDs. -/
def handleImageGeneration (prompt : Str) (newChatId userMsgId modelMsgId : Str)
    (outcome : ImageOutcome) (s : AppState) : TurnResult :=
  if prompt.isEmpty || s.isLoading then ⟨s, []⟩
  else
    let cid := s.currentChatId.getD newChatId
    let userMessageEntry : ChatMessage :=
      ⟨userMsgId, Role.user, strOf "/imagine " ++ prompt, none⟩
    let modelMessageEntry : ChatMessage := ⟨modelMsgId, Role.model, [], none⟩
    let m1 := s.messages ++ [userMessageEntry, modelMessageEntry]
    let m2 := match outcome with
      | ImageOutcome.found img =>
        m1.map (fun m => if m.id == modelMsgId then
          { m with content := [], image := some img } else m)
      | ImageOutcome.missing =>
        setContent modelMsgId
          (strOf "Error: Image generation failed. No image data received from the API.") m1
      | ImageOutcome.thrown msg =>
        setContent modelMsgId (strOf "Error: " ++ msg) m1
    ⟨⟨m2, false, some cid, s.chatReady⟩, [m1, m2]⟩

/-- The `/imagine ` routing test (`part_000` line 208). -/
def isImagineCommand (userMessage : Str) : Bool :=
  strStartsWith (strOf "/imagine ") (jsToLowerCase (jsTrim userMessage))

/-- The prompt handed to image generation (`part_000` line 209):
`userMessage.substring(8).trim()`. -/
def imaginePrompt (userMessage : Str) : Str := jsTrim (userMessage.drop 8)

/-- How a submitted message is routed. -/
inductive SubmissionRoute where
  | toImageGeneration (prompt : Str)
  | toChat
deriving DecidableEq, Repr

/-- Classification of a submission (`part_000` lines 208–211). -/
def classifySubmission (userMessage : Str) : SubmissionRoute :=
  if isImagineCommand userMessage then
    SubmissionRoute.toImageGeneration (imaginePrompt userMessage)
  else SubmissionRoute.toChat

/-- `handleSendMessage` (`part_000` lines 207–280).  Note that on the chat
path the current chat id is allocated *before* the empty-message check, so a
rejected empty submission still sets `currentChatId` — this is mirrored
faithfully. -/
def handleSendMessage (userMessage : Str) (image : Option Image)
    (newChatId userMsgId modelMsgId : Str)
    (imgOutcome : ImageOutcome) (chatOutcome : ChatOutcome)
    (s : AppState) : TurnResult :=
  match classifySubmission userMessage with
  | SubmissionRoute.toImageGeneration prompt =>
    handleImageGeneration prompt newChatId userMsgId modelMsgId imgOutcome s
  | SubmissionRoute.toChat =>
    if !s.chatReady || s.isLoading then ⟨s, []⟩
    else
      let cid := s.currentChatId.getD newChatId
      let s1 : AppState := { s with currentChatId := some cid }
      let effectiveMessage :=
        if userMessage.isEmpty then
          (if image.isSome then strOf "Describe this image." else [])
        else userMessage
      if (jsTrim effectiveMessage).isEmpty && image.isNone then ⟨s1, []⟩
      else
        let userMessageEntry : ChatMessage :=
          ⟨userMsgId, Role.user, effectiveMessage, image⟩
        let modelMessageEntry : ChatMessage := ⟨modelMsgId, Role.model, [], none⟩
        let m1 := s1.messages ++ [userMessageEntry, modelMessageEntry]
        match chatOutcome with
        | ChatOutcome.streamed chunks =>
          let steps := streamSteps modelMsgId [] m1 chunks
          ⟨⟨steps.getLastD m1, false, some cid, s1.chatReady⟩, m1 :: steps⟩
        | ChatOutcome.thrown msg =>
          let m2 := setContent modelMsgId (strOf "Error: " ++ msg) m1
          ⟨⟨m2, false, some cid, s1.chatReady⟩, [m1, m2]⟩

end VA

end VariantA

section VariantB

namespace VB

/-- Variant B title formula (`part_001` line 103):
`updatedMessages[0]?.content.slice(0, 30) + (updatedMessages[0]?.content.length > 30 ? '...' : '') || 'New Chat'`.
With an empty list the optional chain yields `undefined`, `undefined + ''`
is the string `"undefined"` (truthy), so the `|| 'New Chat'` fallback only
fires when the head content is the empty string. -/
def titleOf (msgs : List ChatMessage) : Str :=
  match msgs.head? with
  | none => strOf "undefined"
  | some m =>
    let t := m.content.take 30 ++ (if 30 < m.content.length then strOf "..." else [])
    if t.isEmpty then strOf "New Chat" else t

/-- Variant B upsert (`part_001` lines 105–114): replace messages *and* title
of the first session with a matching id, else append a new record. -/
def upsertSession (cid : Str) (title : Str) (msgs : List ChatMessage) :
    List ChatHistoryItem → List ChatHistoryItem
  | [] => [⟨cid, title, msgs⟩]
  | c :: cs =>
    if c.id == cid then ⟨c.id, title, msgs⟩ :: cs
    else c :: upsertSession cid title msgs cs

/-- `saveChatHistory` (`part_001` lines 100–134).  Returns the in-memory
collection handed back to `setChatHistory`, the stored value after the call
and the number of `localStorage.setItem` attempts made.  On a quota failure
with more than one session, `newHistory.shift()` removes the oldest (first)
session — mutating the very array that is also returned — and the write is
retried once; a retry failure is only logged. -/
def saveChatHistory (sm : StorageModel) (chatId : Str)
    (updatedMessages : List ChatMessage) (prevHistory : List ChatHistoryItem)
    (st : Option Stored) : List ChatHistoryItem × Option Stored × Nat :=
  let title := titleOf updatedMessages
  let newHistory := upsertSession chatId title updatedMessages prevHistory
  if sm.fits newHistory then (newHistory, some (Stored.good newHistory), 1)
  else if 1 < newHistory.length then
    let evicted := newHistory.drop 1
    if sm.fits evicted then (evicted, some (Stored.good evicted), 2)
    else (evicted, st, 2)
  else (newHistory, st, 1)

/-- Variant B history load (`part_001` lines 63–81): the `catch` only logs, so
a parse failure leaves both the in-memory collection (its previous value) and
the stored entry untouched. -/
def loadHistory (entry : Option Stored) (prevHistory : List ChatHistoryItem) :
    List ChatHistoryItem × Option Stored :=
  match entry with
  | some (Stored.good h) => (h, entry)
  | some Stored.corrupt => (prevHistory, entry)
  | none => ([], entry)

/-- Application state of variant B relevant to a turn. -/
structure AppState where
  messages : List ChatMessage
  isLoading : Bool
  currentChatId : Option Str
  chatHistory : List ChatHistoryItem
  storage : Option Stored
  chatReady : Bool

/-- Outcome of the non-streamed chat gateway call (`chat.sendMessage` /
`ai.models.generateContent`). -/
inductive SendOutcome where
  | ok (responseText : Str)
  | thrown
deriving DecidableEq, Repr

/-- `handleSendMessage` (`part_001` lines 136–209).  `tSubmit` is the
`Date.now()` millisecond at submission (used for the chat id and the user
message id, two adjacent calls modelled as the same tick); `tSettle` is the
`Date.now()` millisecond when the gateway call settles (the model message id
is `tSettle + 1`).  There is no `isLoading` guard.  On an error the fallback
apology message is appended to `messages` but `saveChatHistory` is *not*
called for it. -/
def handleSendMessage (sm : StorageModel) (text : Str) (image : Option Image)
    (tSubmit tSettle : Nat) (outcome : SendOutcome) (s : AppState) : AppState :=
  if !s.chatReady then s
  else
    let chatId := s.currentChatId.getD (natToStr tSubmit)
    let userMessage : ChatMessage := ⟨natToStr tSubmit, Role.user, text, image⟩
    let m1 := s.messages ++ [userMessage]
    let r1 := saveChatHistory sm chatId m1 s.chatHistory s.storage
    match outcome with
    | SendOutcome.ok responseText =>
      let botMessage : ChatMessage :=
        ⟨natToStr (tSettle + 1), Role.model, responseText, none⟩
      let m2 := m1 ++ [botMessage]
      let r2 := saveChatHistory sm chatId m2 r1.1 r1.2.1
      ⟨m2, false, some chatId, r2.1, r2.2.1, s.chatReady⟩
    | SendOutcome.thrown =>
      let errMessage : ChatMessage :=
        ⟨natToStr (tSettle + 1), Role.model,
          strOf "Sorry, I encountered an error. Please try again.", none⟩
      ⟨m1 ++ [errMessage], false, some chatId, r1.1, r1.2.1, s.chatReady⟩

/-- The generation-mode selector of variant B's `ChatInput`
(`ChatMessage.tsx` line 242). -/
inductive Mode where
  | chat
  | image
  | threeD
  | app
deriving DecidableEq, Repr

/-- The action a `ChatInput` submission dispatches to the controller. -/
inductive InputAction where
  | sendMessage (text : Str) (image : Option Image)
  | generateImage (prompt : Str) (image : Option Image)
  | generate3D (prompt : Str) (image : Option Image)
  | generateApp (prompt : Str)
deriving DecidableEq, Repr

/-- `ChatInput.handleSubmit` of variant B (`ChatMessage.tsx` lines 349–383):
returns `none` when the submission is rejected (in particular whenever
`isLoading` is set), else the dispatched action.  Note the chat path passes
the *raw* value, the other modes the trimmed value. -/
def handleSubmit (mode : Mode) (value : Str) (image : Option Image)
    (isLoading : Bool) : Option InputAction :=
  let trimmedValue := jsTrim value
  if isLoading then none
  else if trimmedValue.isEmpty && image.isNone && mode == Mode.chat then none
  else if trimmedValue.isEmpty && image.isNone && mode == Mode.threeD then none
  else if trimmedValue.isEmpty && mode == Mode.app then none
  else match mode with
    | Mode.image => some (InputAction.generateImage trimmedValue image)
    | Mode.threeD => some (InputAction.generate3D trimmedValue image)
    | Mode.app => some (InputAction.generateApp trimmedValue)
    | Mode.chat => some (InputAction.sendMessage value image)

end VB

end VariantB

section StringLemmas

/-- The trailing-whitespace trim alone. -/
def jsTrimEnd (s : Str) : Str := (s.reverse.dropWhile isWS).reverse

theorem charOfNat_toNat (n : Nat) (h : n < 0xd800) : (Char.ofNat n).toNat = n := by
  simp [Char.ofNat, Nat.isValidChar, h, Char.toNat, Char.ofNatAux, UInt32.toNat,
    UInt32.ofNatCore]

/-- `jsLowerChar` moves nothing onto a character below the lowercase-letter
range; in particular the command characters `'/'` and `' '` have no other
preimages. -/
theorem jsLowerChar_eq_of_toNat_lt {c d : Char} (hd : d.toNat < 97)
    (h : jsLowerChar c = d) : c = d := by
  unfold jsLowerChar at h
  by_cases hc : 65 ≤ c.toNat ∧ c.toNat ≤ 90
  · rw [if_pos hc] at h
    have hv : c.toNat + 32 < 0xd800 := by omega
    have hn := charOfNat_toNat (c.toNat + 32) hv
    rw [h] at hn
    omega
  · rwa [if_neg hc] at h

theorem dropWhile_append_any {α : Type _} {p : α → Bool} {l1 l2 : List α}
    (h : l1.any (fun x => !p x) = true) :
    (l1 ++ l2).dropWhile p = l1.dropWhile p ++ l2 := by
  rw [List.dropWhile_append, if_neg]
  rw [List.isEmpty_iff, List.dropWhile_eq_nil_iff]
  rcases List.any_eq_true.mp h with ⟨x, hx, hpx⟩
  intro hall
  have := hall x hx
  simp [this] at hpx

theorem dropWhile_append_all {α : Type _} {p : α → Bool} {l1 l2 : List α}
    (h : l1.all p = true) :
    (l1 ++ l2).dropWhile p = l2.dropWhile p := by
  rw [List.dropWhile_append, if_pos]
  rw [List.isEmpty_iff, List.dropWhile_eq_nil_iff]
  exact fun x hx => List.all_eq_true.mp h x hx

theorem any_not_dropWhile {α : Type _} {p : α → Bool} {l : List α}
    (h : l.any (fun x => !p x) = true) :
    (l.dropWhile p).any (fun x => !p x) = true := by
  induction l with
  | nil => simp at h
  | cons a t ih =>
    by_cases hpa : p a
    · rw [List.dropWhile_cons, if_pos hpa]
      apply ih
      simpa [hpa] using h
    · rw [List.dropWhile_cons, if_neg hpa]
      simp [hpa]

/-- A string with a non-whitespace character does not trim to empty. -/
theorem jsTrim_ne_nil {s : Str} (h : s.any (fun c => !isWS c) = true) :
    jsTrim s ≠ [] := by
  unfold jsTrim
  have h1 : (s.dropWhile isWS).any (fun c => !isWS c) = true := any_not_dropWhile h
  have h2 : (s.dropWhile isWS).reverse.any (fun c => !isWS c) = true := by
    rwa [List.any_reverse]
  have h3 := any_not_dropWhile h2
  intro hnil
  rw [List.reverse_eq_nil_iff] at hnil
  rw [hnil] at h3
  simp at h3

/-- Trimming a string that starts with a whitespace character drops it. -/
theorem jsTrim_cons_ws {c : Char} {s : Str} (hc : isWS c = true) :
    jsTrim (c :: s) = jsTrim s := by
  unfold jsTrim
  rw [List.dropWhile_cons, if_pos hc]

/-- Decomposing `trim` over an append whose left part starts with a
non-whitespace character and whose right part contains one. -/
theorem jsTrim_append {c : Char} {p rest : Str} (hc : isWS c = false)
    (hrest : rest.any (fun x => !isWS x) = true) :
    jsTrim ((c :: p) ++ rest) = (c :: p) ++ jsTrimEnd rest := by
  unfold jsTrim jsTrimEnd
  rw [List.cons_append, List.dropWhile_cons, if_neg (by simp [hc])]
  rw [show (c :: (p ++ rest)).reverse = rest.reverse ++ (c :: p).reverse by
    simp]
  rw [dropWhile_append_any (by rwa [List.any_reverse])]
  rw [List.reverse_append, List.reverse_reverse]

/-- Trimming an append whose right part is all whitespace. -/
theorem jsTrim_append_ws {c : Char} {p rest : Str} (hc : isWS c = false)
    (hrest : rest.all isWS = true) :
    jsTrim ((c :: p) ++ rest) = jsTrim (c :: p) := by
  unfold jsTrim
  rw [List.cons_append, List.dropWhile_cons, if_neg (by simp [hc])]
  rw [List.dropWhile_cons, if_neg (by simp [hc])]
  rw [show (c :: (p ++ rest)).reverse = rest.reverse ++ (c :: p).reverse by
    simp]
  rw [dropWhile_append_all (by rwa [List.all_reverse])]

end StringLemmas

section ClaimC3

/-- **C3 counterexample.**  Variant B's title formula (`part_001` line 103)
violates the claim: a session whose first user message has *empty* content —
reachable there, because variant B's `ChatInput` accepts an image-only chat
submission and passes the raw empty `value` through — gets the title
`"New Chat"`, where the claim requires the content unchanged (the empty
string, since 0 ≤ 30 characters); and an empty message list yields the
string `"undefined"` (the JS `undefined + ''` quirk), not `"New Chat"`. -/
theorem c3_counterexample :
    VB.titleOf [⟨strOf "u1", Role.user, [], none⟩] = strOf "New Chat"
  ∧ VB.titleOf [⟨strOf "u1", Role.user, [], none⟩]
      ≠ (⟨strOf "u1", Role.user, [], none⟩ : ChatMessage).content
  ∧ VB.titleOf [] = strOf "undefined" := by
  refine ⟨by decide, by decide, by decide⟩

/-- **C3 (amended).**  In variant A the derived title equals the first 30
characters of the first user message's content followed by `"..."` exactly
when that content is longer than 30 characters (and the content unchanged
otherwise), equals `"New Chat"` when there is no user message, and the
derivation is a function of the message list, so deriving twice yields the
same string.  In variant B the title is derived from the *head* message by
the same 30-character/ellipsis formula when its content is non-empty, but an
empty-content first message yields `"New Chat"` instead of the (empty)
content, and an empty message list yields `"undefined"`. -/
theorem c3_title_derivation (msgs : List ChatMessage) (m : ChatMessage) :
    (msgs.find? (fun x => x.role == Role.user) = some m →
      deriveTitle msgs =
        (if 30 < m.content.length then m.content.take 30 ++ strOf "..."
         else m.content))
  ∧ (msgs.find? (fun x => x.role == Role.user) = none →
      deriveTitle msgs = strOf "New Chat")
  ∧ deriveTitle msgs = deriveTitle msgs
  ∧ (msgs.head? = some m → m.content ≠ [] →
      VB.titleOf msgs =
        (if 30 < m.content.length then m.content.take 30 ++ strOf "..."
         else m.content))
  ∧ (msgs.head? = some m → m.content = [] →
      VB.titleOf msgs = strOf "New Chat")
  ∧ VB.titleOf [] = strOf "undefined" := by
  refine ⟨?_, ?_, rfl, ?_, ?_, rfl⟩
  · intro hf
    unfold deriveTitle
    rw [hf]
    show m.content.take 30 ++ (if 30 < m.content.length then strOf "..." else []) = _
    by_cases h30 : 30 < m.content.length
    · rw [if_pos h30, if_pos h30]
    · rw [if_neg h30, if_neg h30, List.append_nil,
        List.take_of_length_le (by omega)]
  · intro hf
    unfold deriveTitle
    rw [hf]
  · intro hhead hcne
    unfold VB.titleOf
    rw [hhead]
    dsimp only
    have htake : m.content.take 30 ≠ [] := by
      cases hc : m.content with
      | nil => exact absurd hc hcne
      | cons a l => simp
    have htne : m.content.take 30
        ++ (if 30 < m.content.length then strOf "..." else []) ≠ [] :=
      List.append_ne_nil_of_left_ne_nil htake _
    rw [if_neg (by
      rw [List.isEmpty_iff]
      exact htne)]
    by_cases h30 : 30 < m.content.length
    · rw [if_pos h30, if_pos h30]
    · rw [if_neg h30, if_neg h30, List.append_nil,
        List.take_of_length_le (by omega)]
  · intro hhead hceq
    unfold VB.titleOf
    rw [hhead]
    dsimp only
    rw [hceq]
    decide

/-- Witness for C3: a 34-character first user message in variant A, and a
non-empty head message in variant B. -/
theorem c3_title_derivation_witness :
    deriveTitle [⟨strOf "u1", Role.user,
        strOf "0123456789012345678901234567890123", none⟩]
      = strOf "012345678901234567890123456789..."
  ∧ VB.titleOf [⟨strOf "u1", Role.user, strOf "hello", none⟩]
      = strOf "hello" := by
  constructor
  · have h := (c3_title_derivation
        [⟨strOf "u1", Role.user, strOf "0123456789012345678901234567890123", none⟩]
        ⟨strOf "u1", Role.user, strOf "0123456789012345678901234567890123", none⟩).1
        (by decide)
    rw [h]
    decide
  · have h := (c3_title_derivation
        [⟨strOf "u1", Role.user, strOf "hello", none⟩]
        ⟨strOf "u1", Role.user, strOf "hello", none⟩).2.2.2.1
        (by decide) (by decide)
    rw [h]
    decide

end ClaimC3

section ClaimC7

/-- **C7 counterexample.**  The submission `"/imagine "` begins with the
leading-slash command `"/imagine "` (with empty remainder), but the code
routes it to the plain-chat path, not to image generation: the classifier
trims the submission before testing the prefix, so the trailing space of the
command is removed and the `startsWith` test fails. -/
theorem c7_counterexample :
    VA.classifySubmission (strOf "/imagine ") = VA.SubmissionRoute.toChat := by
  decide

/-- **C7 (amended).**  A submitted message of the form `"/imagine " ++ rest`
in which `rest` contains at least one non-whitespace character is classified
as an image-generation turn with prompt `rest` trimmed of surrounding
whitespace (and that prompt is non-empty, so the image handler accepts it);
a message that is `"/imagine "` followed by whitespace only is instead
classified as plain chat. -/
theorem c7_imagine_routing (rest : Str)
    (hrest : rest.any (fun c => !isWS c) = true) :
    VA.classifySubmission (strOf "/imagine " ++ rest)
      = VA.SubmissionRoute.toImageGeneration (jsTrim rest)
  ∧ (jsTrim rest).isEmpty = false
  ∧ (∀ rest2 : Str, rest2.all isWS = true →
      VA.classifySubmission (strOf "/imagine " ++ rest2)
        = VA.SubmissionRoute.toChat) := by
  refine ⟨?_, ?_, ?_⟩
  · have htrim : jsTrim (strOf "/imagine " ++ rest)
        = strOf "/imagine " ++ jsTrimEnd rest := by
      have := @jsTrim_append '/' (strOf "imagine ") rest (by decide) hrest
      exact this
    have hcmd : VA.isImagineCommand (strOf "/imagine " ++ rest) = true := by
      unfold VA.isImagineCommand
      rw [htrim]
      unfold jsToLowerCase
      rw [List.map_append]
      rw [show (strOf "/imagine ").map jsLowerChar = strOf "/imagine " by decide]
      unfold strStartsWith
      rw [show (strOf "/imagine ").length
          = (strOf "/imagine ").length from rfl]
      rw [List.take_left]
      exact beq_self_eq_true _
    have hprompt : VA.imaginePrompt (strOf "/imagine " ++ rest) = jsTrim rest := by
      unfold VA.imaginePrompt
      rw [List.drop_append_eq_append_drop]
      rw [show (strOf "/imagine ").drop 8 = [' '] by decide]
      rw [show 8 - (strOf "/imagine ").length = 0 by decide]
      rw [List.drop_zero]
      exact jsTrim_cons_ws (by decide)
    unfold VA.classifySubmission
    rw [hcmd, if_pos rfl, hprompt]
  · rw [show ((jsTrim rest).isEmpty = false) = ¬ ((jsTrim rest).isEmpty = true) by
      simp]
    rw [List.isEmpty_iff]
    exact jsTrim_ne_nil hrest
  · intro rest2 hrest2
    have htrim : jsTrim (strOf "/imagine " ++ rest2) = jsTrim (strOf "/imagine ") := by
      have := @jsTrim_append_ws '/' (strOf "imagine ") rest2 (by decide) hrest2
      exact this
    unfold VA.classifySubmission VA.isImagineCommand
    rw [htrim]
    rw [show strStartsWith (strOf "/imagine ")
        (jsToLowerCase (jsTrim (strOf "/imagine "))) = false by decide]
    simp

/-- Witness for C7 at the claim's own example: `"/imagine a red cube"` routes
to image generation with prompt `"a red cube"`. -/
theorem c7_imagine_routing_witness :
    VA.classifySubmission (strOf "/imagine a red cube")
      = VA.SubmissionRoute.toImageGeneration (strOf "a red cube") := by
  have h := (c7_imagine_routing (strOf "a red cube") (by decide)).1
  have e1 : strOf "/imagine " ++ strOf "a red cube" = strOf "/imagine a red cube" := by
    decide
  have e2 : jsTrim (strOf "a red cube") = strOf "a red cube" := by decide
  rw [e1, e2] at h
  exact h

end ClaimC7

section ClaimC8

/-- **C8 counterexample.**  In variant B, loading a corrupt persisted entry
leaves the previous in-memory collection in place and does *not* remove the
corrupt entry from storage (the `catch` only logs), contradicting the claim
that the collection is set to empty and the entry removed. -/
theorem c8_counterexample :
    VB.loadHistory (some Stored.corrupt) [⟨strOf "s1", strOf "t", []⟩]
      = ([⟨strOf "s1", strOf "t", []⟩], some Stored.corrupt)
  ∧ VB.loadHistory (some Stored.corrupt) [⟨strOf "s1", strOf "t", []⟩]
      ≠ ([], none) := by
  exact ⟨rfl, by decide⟩

/-- **C8 (amended).**  Loading persisted history parses the stored collection
for the user's key.  In variant A a parse failure sets the in-memory
collection to the empty collection and removes the corrupt entry, as claimed;
in variant B a parse failure is only logged — the in-memory collection keeps
its previous value and the corrupt entry stays in storage. -/
theorem c8_load_parse_failure (h : List ChatHistoryItem)
    (prev : List ChatHistoryItem) :
    VA.loadHistory (some Stored.corrupt) = ([], none)
  ∧ VA.loadHistory (some (Stored.good h)) = (h, some (Stored.good h))
  ∧ VB.loadHistory (some Stored.corrupt) prev = (prev, some Stored.corrupt)
  ∧ VB.loadHistory (some (Stored.good h)) prev = (h, some (Stored.good h)) :=
  ⟨rfl, rfl, rfl, rfl⟩

end ClaimC8

section MessageLemmas

theorem hasId_nil (i : Str) : hasId i [] = false := rfl

theorem hasId_cons (i : Str) (m : ChatMessage) (ms : List ChatMessage) :
    hasId i (m :: ms) = ((m.id == i) || hasId i ms) := by
  unfold hasId
  exact List.any_cons

theorem hasId_append (i : Str) (l1 l2 : List ChatMessage) :
    hasId i (l1 ++ l2) = (hasId i l1 || hasId i l2) := by
  unfold hasId
  exact List.any_append

theorem setContent_nil (i t : Str) : setContent i t [] = [] := rfl

theorem setContent_cons (i t : Str) (m : ChatMessage) (ms : List ChatMessage) :
    setContent i t (m :: ms) =
      (if (m.id == i) = true then { m with content := t } else m)
        :: setContent i t ms := rfl

theorem contentOf_nil (i : Str) : contentOf i [] = none := rfl

theorem contentOf_cons_self {i : Str} {m : ChatMessage} (ms : List ChatMessage)
    (hm : (m.id == i) = true) : contentOf i (m :: ms) = some m.content := by
  unfold contentOf
  rw [List.find?_cons, hm]
  rfl

theorem contentOf_cons_ne {i : Str} {m : ChatMessage} (ms : List ChatMessage)
    (hm : (m.id == i) = false) : contentOf i (m :: ms) = contentOf i ms := by
  unfold contentOf
  rw [List.find?_cons, hm]

theorem setContent_of_fresh {i t : Str} {l : List ChatMessage}
    (h : hasId i l = false) : setContent i t l = l := by
  induction l with
  | nil => rfl
  | cons m ms ih =>
    rw [hasId_cons, Bool.or_eq_false_iff] at h
    rw [setContent_cons, if_neg (by simp [h.1]), ih h.2]

theorem setContent_append (i t : Str) (l1 l2 : List ChatMessage) :
    setContent i t (l1 ++ l2) = setContent i t l1 ++ setContent i t l2 := by
  unfold setContent
  exact List.map_append _ _ _

theorem setContent_setContent (i t t2 : Str) (msgs : List ChatMessage) :
    setContent i t (setContent i t2 msgs) = setContent i t msgs := by
  induction msgs with
  | nil => rfl
  | cons m ms ih =>
    by_cases hm : (m.id == i) = true
    · have e1 : setContent i t2 (m :: ms)
          = ({ m with content := t2 } : ChatMessage) :: setContent i t2 ms := by
        rw [setContent_cons, if_pos hm]
      have e2 : setContent i t
            (({ m with content := t2 } : ChatMessage) :: setContent i t2 ms)
          = ({ m with content := t } : ChatMessage)
              :: setContent i t (setContent i t2 ms) := by
        rw [setContent_cons,
          if_pos (show ((({ m with content := t2 } : ChatMessage)).id == i) = true
            from hm)]
      have e3 : setContent i t (m :: ms)
          = ({ m with content := t } : ChatMessage) :: setContent i t ms := by
        rw [setContent_cons, if_pos hm]
      rw [e1, e2, e3, ih]
    · have e1 : setContent i t2 (m :: ms) = m :: setContent i t2 ms := by
        rw [setContent_cons, if_neg hm]
      have e2 : setContent i t (m :: setContent i t2 ms)
          = m :: setContent i t (setContent i t2 ms) := by
        rw [setContent_cons, if_neg hm]
      have e3 : setContent i t (m :: ms) = m :: setContent i t ms := by
        rw [setContent_cons, if_neg hm]
      rw [e1, e2, e3, ih]

theorem idsOf_setContent (i t : Str) (msgs : List ChatMessage) :
    idsOf (setContent i t msgs) = idsOf msgs := by
  induction msgs with
  | nil => rfl
  | cons m ms ih =>
    rw [setContent_cons]
    unfold idsOf at ih ⊢
    rw [List.map_cons, List.map_cons, ih]
    by_cases hm : (m.id == i) = true
    · rw [if_pos hm]
    · rw [if_neg hm]

theorem hasId_setContent (i t j : Str) (msgs : List ChatMessage) :
    hasId j (setContent i t msgs) = hasId j msgs := by
  induction msgs with
  | nil => rfl
  | cons m ms ih =>
    rw [setContent_cons, hasId_cons, hasId_cons, ih]
    by_cases hm : (m.id == i) = true
    · rw [if_pos hm]
    · rw [if_neg hm]

theorem length_setContent (i t : Str) (msgs : List ChatMessage) :
    (setContent i t msgs).length = msgs.length := by
  unfold setContent
  exact List.length_map _ _

theorem find?_eq_none_of_fresh {i : Str} {l : List ChatMessage}
    (h : hasId i l = false) : l.find? (fun m => m.id == i) = none := by
  rw [List.find?_eq_none]
  intro m hm
  rw [hasId] at h
  rw [List.any_eq_false] at h
  exact h m hm

theorem contentOf_append_fresh {i : Str} {l1 : List ChatMessage}
    (l2 : List ChatMessage) (h : hasId i l1 = false) :
    contentOf i (l1 ++ l2) = contentOf i l2 := by
  unfold contentOf
  rw [List.find?_append, find?_eq_none_of_fresh h, Option.none_or]

theorem contentOf_setContent {i t : Str} {msgs : List ChatMessage}
    (h : hasId i msgs = true) :
    contentOf i (setContent i t msgs) = some t := by
  induction msgs with
  | nil => rw [hasId_nil] at h; cases h
  | cons m ms ih =>
    rw [setContent_cons]
    by_cases hm : (m.id == i) = true
    · rw [if_pos hm]
      exact contentOf_cons_self _ hm
    · rw [if_neg hm]
      rw [hasId_cons] at h
      have hm2 : (m.id == i) = false := by
        cases hbe : (m.id == i) with
        | true => exact absurd hbe hm
        | false => rfl
      rw [contentOf_cons_ne _ hm2]
      apply ih
      rw [hm2] at h
      simpa using h

theorem getLastD_mem_or {α : Type _} (l : List α) (d : α) :
    l.getLastD d = d ∨ l.getLastD d ∈ l := by
  cases l with
  | nil => exact Or.inl rfl
  | cons a t =>
    right
    rw [List.getLastD_eq_getLast?, List.getLast?_eq_getLast _ (by simp)]
    exact List.getLast_mem _

end MessageLemmas

section StreamLemmas

/-- Every intermediate state produced by the streaming loop is the input list
with the placeholder's content replaced. -/
theorem streamSteps_mem_shape (i : Str) (cs : List Str) :
    ∀ (acc : Str) (msgs ms : List ChatMessage),
      ms ∈ VA.streamSteps i acc msgs cs → ∃ t, ms = setContent i t msgs := by
  induction cs with
  | nil => intro acc msgs ms hm; simp [VA.streamSteps] at hm
  | cons c cs ih =>
    intro acc msgs ms hm
    rw [VA.streamSteps] at hm
    rcases List.mem_cons.mp hm with h | h
    · exact ⟨acc ++ c, h⟩
    · rcases ih (acc ++ c) _ ms h with ⟨t, ht⟩
      exact ⟨t, by rw [ht, setContent_setContent]⟩

/-- The placeholder's content after each chunk is the concatenation of the
accumulator with the chunks seen so far, in arrival order. -/
theorem streamSteps_map_contentOf (i : Str) (cs : List Str) :
    ∀ (acc : Str) (msgs : List ChatMessage), hasId i msgs = true →
      (VA.streamSteps i acc msgs cs).map (contentOf i)
        = (List.range cs.length).map
            (fun k => some (acc ++ (cs.take (k+1)).flatten)) := by
  induction cs with
  | nil => intro acc msgs _; simp [VA.streamSteps]
  | cons c cs ih =>
    intro acc msgs h
    rw [VA.streamSteps]
    rw [List.map_cons]
    rw [contentOf_setContent h]
    rw [ih (acc ++ c) _ (by rw [hasId_setContent]; exact h)]
    rw [List.length_cons, List.range_succ_eq_map, List.map_cons, List.map_map]
    congr 1
    · simp
    · apply List.map_congr_left
      intro k _
      simp [List.take_succ_cons, List.flatten_cons, List.append_assoc,
        Function.comp]

/-- The final content after the whole stream is the accumulator followed by
the concatenation of all chunks. -/
theorem contentOf_getLastD_streamSteps (i : Str) (cs : List Str) :
    ∀ (acc : Str) (msgs : List ChatMessage), hasId i msgs = true →
      contentOf i msgs = some acc →
      contentOf i ((VA.streamSteps i acc msgs cs).getLastD msgs)
        = some (acc ++ cs.flatten) := by
  induction cs with
  | nil => intro acc msgs _ hc; simpa [VA.streamSteps] using hc
  | cons c cs ih =>
    intro acc msgs h hc
    rw [VA.streamSteps, List.getLastD_cons]
    have h2 : hasId i (setContent i (acc ++ c) msgs) = true := by
      rw [hasId_setContent]; exact h
    have hc2 : contentOf i (setContent i (acc ++ c) msgs) = some (acc ++ c) :=
      contentOf_setContent h
    rw [ih (acc ++ c) _ h2 hc2]
    simp [List.flatten_cons, List.append_assoc]

end StreamLemmas

section TurnShape

/-- The message list right after a chat-path submission appends the user
message and the model placeholder (`part_000` line 244). -/
def chatM1 (s : VA.AppState) (userMessage : Str) (image : Option Image)
    (uid mid : Str) : List ChatMessage :=
  s.messages ++ [⟨uid, Role.user, userMessage, image⟩, ⟨mid, Role.model, [], none⟩]

theorem classifySubmission_toChat {userMessage : Str}
    (h : VA.isImagineCommand userMessage = false) :
    VA.classifySubmission userMessage = VA.SubmissionRoute.toChat := by
  unfold VA.classifySubmission
  rw [h]
  simp

theorem handleSendMessage_streamed_eq
    (s : VA.AppState) (userMessage : Str) (image : Option Image)
    (ncid uid mid : Str) (io : VA.ImageOutcome) (chunks : List Str)
    (hroute : VA.isImagineCommand userMessage = false)
    (hready : s.chatReady = true) (hidle : s.isLoading = false)
    (hne : userMessage.isEmpty = false)
    (htrim : (jsTrim userMessage).isEmpty = false) :
    VA.handleSendMessage userMessage image ncid uid mid io
        (VA.ChatOutcome.streamed chunks) s
      = ⟨⟨(VA.streamSteps mid [] (chatM1 s userMessage image uid mid) chunks).getLastD
            (chatM1 s userMessage image uid mid),
          false, some (s.currentChatId.getD ncid), true⟩,
         chatM1 s userMessage image uid mid
           :: VA.streamSteps mid [] (chatM1 s userMessage image uid mid) chunks⟩ := by
  unfold VA.handleSendMessage
  rw [classifySubmission_toChat hroute]
  simp only [hready, hidle, hne, htrim, Bool.not_true, Bool.false_or,
    Bool.false_and, Bool.false_eq_true, if_false, chatM1]

theorem handleSendMessage_thrown_eq
    (s : VA.AppState) (userMessage : Str) (image : Option Image)
    (ncid uid mid : Str) (io : VA.ImageOutcome) (msg : Str)
    (hroute : VA.isImagineCommand userMessage = false)
    (hready : s.chatReady = true) (hidle : s.isLoading = false)
    (hne : userMessage.isEmpty = false)
    (htrim : (jsTrim userMessage).isEmpty = false) :
    VA.handleSendMessage userMessage image ncid uid mid io
        (VA.ChatOutcome.thrown msg) s
      = ⟨⟨setContent mid (strOf "Error: " ++ msg) (chatM1 s userMessage image uid mid),
          false, some (s.currentChatId.getD ncid), true⟩,
         [chatM1 s userMessage image uid mid,
          setContent mid (strOf "Error: " ++ msg) (chatM1 s userMessage image uid mid)]⟩ := by
  unfold VA.handleSendMessage
  rw [classifySubmission_toChat hroute]
  simp only [hready, hidle, hne, htrim, Bool.not_true, Bool.false_or,
    Bool.false_and, Bool.false_eq_true, if_false, chatM1]

/-- The message list right after an accepted `/imagine` submission. -/
def imageM1 (s : VA.AppState) (prompt : Str) (uid mid : Str) : List ChatMessage :=
  s.messages ++ [⟨uid, Role.user, strOf "/imagine " ++ prompt, none⟩,
    ⟨mid, Role.model, [], none⟩]

theorem handleImageGeneration_eq
    (s : VA.AppState) (prompt : Str) (ncid uid mid : Str)
    (io : VA.ImageOutcome)
    (hprompt : prompt.isEmpty = false) (hidle : s.isLoading = false) :
    VA.handleImageGeneration prompt ncid uid mid io s
      = ⟨⟨(match io with
           | VA.ImageOutcome.found img =>
             (imageM1 s prompt uid mid).map (fun m => if m.id == mid then
                { m with content := [], image := some img } else m)
           | VA.ImageOutcome.missing =>
             setContent mid
               (strOf "Error: Image generation failed. No image data received from the API.")
               (imageM1 s prompt uid mid)
           | VA.ImageOutcome.thrown msg =>
             setContent mid (strOf "Error: " ++ msg) (imageM1 s prompt uid mid)),
          false, some (s.currentChatId.getD ncid), s.chatReady⟩,
         [imageM1 s prompt uid mid,
          (match io with
           | VA.ImageOutcome.found img =>
             (imageM1 s prompt uid mid).map (fun m => if m.id == mid then
                { m with content := [], image := some img } else m)
           | VA.ImageOutcome.missing =>
             setContent mid
               (strOf "Error: Image generation failed. No image data received from the API.")
               (imageM1 s prompt uid mid)
           | VA.ImageOutcome.thrown msg =>
             setContent mid (strOf "Error: " ++ msg) (imageM1 s prompt uid mid))]⟩ := by
  unfold VA.handleImageGeneration
  simp only [hprompt, hidle, Bool.false_or, Bool.false_eq_true, if_false,
    imageM1, setContent]

end TurnShape

section HistoryLemmas

theorem sessionMessages_upsert (cid : Str) (msgs : List ChatMessage)
    (hist : List ChatHistoryItem) :
    VA.sessionMessages cid (VA.upsertSession cid msgs hist) = some msgs := by
  induction hist with
  | nil =>
    unfold VA.upsertSession VA.sessionMessages
    rw [List.find?_cons]
    simp
  | cons c cs ih =>
    unfold VA.upsertSession
    by_cases hc : (c.id == cid) = true
    · rw [if_pos hc]
      unfold VA.sessionMessages
      rw [List.find?_cons]
      rw [show ((⟨c.id, c.title, msgs⟩ : ChatHistoryItem).id == cid) = true from hc]
      rfl
    · rw [if_neg hc]
      have hc2 : (c.id == cid) = false := by
        cases hbe : (c.id == cid) with
        | true => exact absurd hbe hc
        | false => rfl
      unfold VA.sessionMessages at ih ⊢
      rw [List.find?_cons, hc2]
      exact ih

theorem sessionMessages_historyEffect (cid : Str) (msgs : List ChatMessage)
    (hist : List ChatHistoryItem) (h : msgs.isEmpty = false) :
    VA.sessionMessages cid (VA.historyEffect (some cid) msgs hist) = some msgs := by
  unfold VA.historyEffect
  dsimp only
  rw [h, if_neg (by simp)]
  exact sessionMessages_upsert cid msgs hist

theorem sessionMessages_runHistoryEffect (cid : Str) :
    ∀ (trace : List (List ChatMessage)) (hist : List ChatHistoryItem),
      trace ≠ [] → (∀ t ∈ trace, t.isEmpty = false) →
      VA.sessionMessages cid (VA.runHistoryEffect (some cid) trace hist)
        = some (trace.getLastD []) := by
  intro trace
  induction trace with
  | nil => intro hist hne _; cases hne rfl
  | cons m rest ih =>
    intro hist _ hall
    rw [VA.runHistoryEffect, List.foldl_cons]
    cases rest with
    | nil =>
      exact sessionMessages_historyEffect cid m hist (hall m (by simp))
    | cons m2 rest2 =>
      have e : ((m :: m2 :: rest2).getLastD ([] : List ChatMessage))
          = (m2 :: rest2).getLastD [] := by
        simp [List.getLastD_cons]
      rw [e]
      exact ih (VA.historyEffect (some cid) m hist) (by simp)
        (fun t ht => hall t (List.mem_cons_of_mem _ ht))

end HistoryLemmas

section ClaimC1

/-- **C1.**  During a streamed chat turn, after the `k`-th chunk the
placeholder model message's content equals the concatenation of the first `k`
chunk texts in arrival order (the trace maps to
`"" , c₁, c₁++c₂, …`), the final content equals the concatenation of all
chunks, the loading flag ends false, and the session committed by the history
effect holds exactly the final message list. -/
theorem c1_stream_accumulation
    (s : VA.AppState) (userMessage : Str) (image : Option Image)
    (ncid uid mid : Str) (io : VA.ImageOutcome) (chunks : List Str)
    (hist : List ChatHistoryItem) (r : VA.TurnResult)
    (hr : r = VA.handleSendMessage userMessage image ncid uid mid io
        (VA.ChatOutcome.streamed chunks) s)
    (hroute : VA.isImagineCommand userMessage = false)
    (hready : s.chatReady = true) (hidle : s.isLoading = false)
    (hne : userMessage.isEmpty = false)
    (htrim : (jsTrim userMessage).isEmpty = false)
    (hfresh : hasId mid s.messages = false)
    (huid : (uid == mid) = false) :
    r.trace.map (contentOf mid)
      = some [] :: (List.range chunks.length).map
          (fun k => some ((chunks.take (k+1)).flatten))
  ∧ contentOf mid r.state.messages = some chunks.flatten
  ∧ r.state.isLoading = false
  ∧ VA.sessionMessages (s.currentChatId.getD ncid)
      (VA.runHistoryEffect (some (s.currentChatId.getD ncid)) r.trace hist)
      = some r.state.messages := by
  rw [hr, handleSendMessage_streamed_eq s userMessage image ncid uid mid io chunks
    hroute hready hidle hne htrim]
  dsimp only
  have hhas : hasId mid (chatM1 s userMessage image uid mid) = true := by
    unfold chatM1
    rw [hasId_append, hasId_cons, hasId_cons, hasId_nil]
    simp [hfresh, huid]
  have hcontent : contentOf mid (chatM1 s userMessage image uid mid) = some [] := by
    unfold chatM1
    rw [contentOf_append_fresh _ hfresh, contentOf_cons_ne _ huid,
      contentOf_cons_self _ (by simp)]
  refine ⟨?_, ?_, rfl, ?_⟩
  · rw [List.map_cons, hcontent,
      streamSteps_map_contentOf mid chunks [] _ hhas]
    simp only [List.nil_append]
  · have := contentOf_getLastD_streamSteps mid chunks []
      (chatM1 s userMessage image uid mid) hhas hcontent
    simpa using this
  · have htrace_ne : (chatM1 s userMessage image uid mid
        :: VA.streamSteps mid [] (chatM1 s userMessage image uid mid) chunks) ≠ [] := by
      simp
    have hall : ∀ t ∈ (chatM1 s userMessage image uid mid
        :: VA.streamSteps mid [] (chatM1 s userMessage image uid mid) chunks),
        t.isEmpty = false := by
      intro t ht
      rcases List.mem_cons.mp ht with h | h
      · subst h
        unfold chatM1
        simp
      · rcases streamSteps_mem_shape mid chunks [] _ t h with ⟨tt, htt⟩
        have hlen : t.length = (chatM1 s userMessage image uid mid).length := by
          rw [htt]
          exact length_setContent _ _ _
        cases t with
        | nil =>
          exfalso
          unfold chatM1 at hlen
          simp at hlen
        | cons a b => rfl
    have hrun := sessionMessages_runHistoryEffect (s.currentChatId.getD ncid)
      (chatM1 s userMessage image uid mid
        :: VA.streamSteps mid [] (chatM1 s userMessage image uid mid) chunks)
      hist htrace_ne hall
    rw [List.getLastD_cons] at hrun
    exact hrun

/-- Witness for C1 at the spec's example chunks `["Hel", "lo, ", "world"]`:
intermediate contents `"Hel"`, `"Hello, "` and final content
`"Hello, world"`. -/
theorem c1_stream_accumulation_witness :
    (VA.handleSendMessage (strOf "Hi") none (strOf "c1") (strOf "u1") (strOf "m1")
        VA.ImageOutcome.missing
        (VA.ChatOutcome.streamed [strOf "Hel", strOf "lo, ", strOf "world"])
        ⟨[], false, none, true⟩).trace.map (contentOf (strOf "m1"))
      = [some [], some (strOf "Hel"), some (strOf "Hello, "),
         some (strOf "Hello, world")]
  ∧ contentOf (strOf "m1")
      (VA.handleSendMessage (strOf "Hi") none (strOf "c1") (strOf "u1") (strOf "m1")
        VA.ImageOutcome.missing
        (VA.ChatOutcome.streamed [strOf "Hel", strOf "lo, ", strOf "world"])
        ⟨[], false, none, true⟩).state.messages = some (strOf "Hello, world") := by
  have h := c1_stream_accumulation ⟨[], false, none, true⟩ (strOf "Hi") none
    (strOf "c1") (strOf "u1") (strOf "m1") VA.ImageOutcome.missing
    [strOf "Hel", strOf "lo, ", strOf "world"] [] _ rfl
    (by decide) rfl rfl (by decide) (by decide) (by decide) (by decide)
  exact ⟨h.1.trans (by decide), h.2.1.trans (by decide)⟩

end ClaimC1

section ClaimC2

/-- **C2 counterexample.**  In variant B an erroring turn appends exactly one
model message with the fallback apology and clears the flag, but the session
is *not* upserted into persisted history with that error content: the stored
session still ends at the user message (only the pre-call save ran), while
the in-memory list carries the error message. -/
theorem c2_counterexample :
    (VB.handleSendMessage ⟨fun _ => true⟩ (strOf "Hi") none 100 100
        VB.SendOutcome.thrown ⟨[], false, none, [], none, true⟩).storage
      = some (Stored.good [⟨natToStr 100, strOf "Hi",
          [⟨natToStr 100, Role.user, strOf "Hi", none⟩]⟩])
  ∧ (VB.handleSendMessage ⟨fun _ => true⟩ (strOf "Hi") none 100 100
        VB.SendOutcome.thrown ⟨[], false, none, [], none, true⟩).messages
      = [⟨natToStr 100, Role.user, strOf "Hi", none⟩,
         ⟨natToStr 101, Role.model,
           strOf "Sorry, I encountered an error. Please try again.", none⟩] := by
  exact ⟨by decide, by decide⟩

/-- **C2 (amended).**  For every turn in which the gateway call throws:
in variant A the placeholder model message's content is replaced with
`"Error: " + message` (the turn contributes exactly one model message), the
loading flag returns to false, and the session is still upserted into
persisted history with that error content (when the write fits); in variant B
exactly one model message carrying the fixed fallback apology is appended and
the flag cleared, but the session is *not* re-persisted with the error
content — storage and history reflect only the save made for the user
message before the call. -/
theorem c2_error_turn
    (s : VA.AppState) (userMessage : Str) (image : Option Image)
    (ncid uid mid : Str) (io : VA.ImageOutcome) (msg : Str)
    (hist : List ChatHistoryItem) (st : Option Stored) (sm : StorageModel)
    (r : VA.TurnResult)
    (hr : r = VA.handleSendMessage userMessage image ncid uid mid io
        (VA.ChatOutcome.thrown msg) s)
    (hroute : VA.isImagineCommand userMessage = false)
    (hready : s.chatReady = true) (hidle : s.isLoading = false)
    (hne : userMessage.isEmpty = false)
    (htrim : (jsTrim userMessage).isEmpty = false)
    (hfresh : hasId mid s.messages = false)
    (huid : (uid == mid) = false)
    (hfits : sm.fits (VA.runHistoryEffect (some (s.currentChatId.getD ncid))
        r.trace hist) = true)
    (sB : VB.AppState) (smB : StorageModel) (textB : Str) (imgB : Option Image)
    (t1 t2 : Nat) (rB : VB.AppState)
    (hrB : rB = VB.handleSendMessage smB textB imgB t1 t2 VB.SendOutcome.thrown sB)
    (hreadyB : sB.chatReady = true) :
    r.state.messages = s.messages
      ++ [⟨uid, Role.user, userMessage, image⟩,
          ⟨mid, Role.model, strOf "Error: " ++ msg, none⟩]
  ∧ r.state.isLoading = false
  ∧ VA.sessionMessages (s.currentChatId.getD ncid)
      (VA.runHistoryEffect (some (s.currentChatId.getD ncid)) r.trace hist)
      = some r.state.messages
  ∧ VA.persistEffect sm
      (VA.runHistoryEffect (some (s.currentChatId.getD ncid)) r.trace hist) st
      = some (Stored.good
          (VA.runHistoryEffect (some (s.currentChatId.getD ncid)) r.trace hist))
  ∧ rB.messages = sB.messages
      ++ [⟨natToStr t1, Role.user, textB, imgB⟩,
          ⟨natToStr (t2+1), Role.model,
            strOf "Sorry, I encountered an error. Please try again.", none⟩]
  ∧ rB.isLoading = false
  ∧ rB.storage = (VB.saveChatHistory smB (sB.currentChatId.getD (natToStr t1))
      (sB.messages ++ [⟨natToStr t1, Role.user, textB, imgB⟩])
      sB.chatHistory sB.storage).2.1
  ∧ rB.chatHistory = (VB.saveChatHistory smB (sB.currentChatId.getD (natToStr t1))
      (sB.messages ++ [⟨natToStr t1, Role.user, textB, imgB⟩])
      sB.chatHistory sB.storage).1 := by
  have hsetc : setContent mid (strOf "Error: " ++ msg)
        (chatM1 s userMessage image uid mid)
      = s.messages ++ [⟨uid, Role.user, userMessage, image⟩,
          ⟨mid, Role.model, strOf "Error: " ++ msg, none⟩] := by
    unfold chatM1
    rw [setContent_append, setContent_of_fresh hfresh, setContent_cons,
      if_neg (by simp [huid]), setContent_cons, if_pos (by simp), setContent_nil]
  subst hr
  rw [handleSendMessage_thrown_eq s userMessage image ncid uid mid io msg
    hroute hready hidle hne htrim] at hfits ⊢
  dsimp only at hfits ⊢
  have hm1ne : (chatM1 s userMessage image uid mid).isEmpty = false := by
    unfold chatM1
    simp
  have hm2ne : (setContent mid (strOf "Error: " ++ msg)
      (chatM1 s userMessage image uid mid)).isEmpty = false := by
    rw [hsetc]
    simp
  have hsession : VA.sessionMessages (s.currentChatId.getD ncid)
      (VA.runHistoryEffect (some (s.currentChatId.getD ncid))
        [chatM1 s userMessage image uid mid,
         setContent mid (strOf "Error: " ++ msg) (chatM1 s userMessage image uid mid)]
        hist)
      = some (setContent mid (strOf "Error: " ++ msg)
          (chatM1 s userMessage image uid mid)) := by
    have := sessionMessages_runHistoryEffect (s.currentChatId.getD ncid)
      [chatM1 s userMessage image uid mid,
       setContent mid (strOf "Error: " ++ msg) (chatM1 s userMessage image uid mid)]
      hist (by simp)
      (by
        intro t ht
        rcases List.mem_cons.mp ht with h | h
        · subst h; exact hm1ne
        · rcases List.mem_cons.mp h with h2 | h2
          · subst h2; exact hm2ne
          · simp at h2)
    simpa [List.getLastD_cons] using this
  have hrun_ne : (VA.runHistoryEffect (some (s.currentChatId.getD ncid))
      [chatM1 s userMessage image uid mid,
       setContent mid (strOf "Error: " ++ msg) (chatM1 s userMessage image uid mid)]
      hist).isEmpty = false := by
    cases hh : VA.runHistoryEffect (some (s.currentChatId.getD ncid))
        [chatM1 s userMessage image uid mid,
         setContent mid (strOf "Error: " ++ msg) (chatM1 s userMessage image uid mid)]
        hist with
    | nil =>
      rw [hh] at hsession
      exact absurd hsession (by simp [VA.sessionMessages])
    | cons a l => rfl
  refine ⟨hsetc, rfl, hsession, ?_, ?_, ?_, ?_, ?_⟩
  · unfold VA.persistEffect
    rw [hrun_ne, if_neg (by simp), hfits, if_pos rfl]
  all_goals
    subst hrB
    unfold VB.handleSendMessage
    rw [hreadyB]
    simp [List.append_assoc]

/-- Witness for C2 at concrete erroring turns of both variants. -/
theorem c2_error_turn_witness :
    (VA.handleSendMessage (strOf "Hi") none (strOf "c") (strOf "u") (strOf "m")
        VA.ImageOutcome.missing (VA.ChatOutcome.thrown (strOf "boom"))
        ⟨[], false, none, true⟩).state.messages
      = [⟨strOf "u", Role.user, strOf "Hi", none⟩,
         ⟨strOf "m", Role.model, strOf "Error: boom", none⟩]
  ∧ (VB.handleSendMessage ⟨fun _ => true⟩ (strOf "Hey") none 1 2
        VB.SendOutcome.thrown ⟨[], false, none, [], none, true⟩).messages
      = [⟨natToStr 1, Role.user, strOf "Hey", none⟩,
         ⟨natToStr 3, Role.model,
           strOf "Sorry, I encountered an error. Please try again.", none⟩] := by
  have h := c2_error_turn ⟨[], false, none, true⟩ (strOf "Hi") none
    (strOf "c") (strOf "u") (strOf "m") VA.ImageOutcome.missing (strOf "boom")
    [] none ⟨fun _ => true⟩ _ rfl (by decide) rfl rfl (by decide) (by decide)
    (by decide) (by decide) (by decide)
    ⟨[], false, none, [], none, true⟩ ⟨fun _ => true⟩ (strOf "Hey") none 1 2
    _ rfl rfl
  exact ⟨h.1.trans (by decide), (h.2.2.2.2.1).trans (by decide)⟩

end ClaimC2

section ClaimC6Defs

/-- Erase a message's content (what an in-place content update may change). -/
def eraseContent (m : ChatMessage) : ChatMessage := { m with content := [] }

/-- Erase a message's content and image payload. -/
def eraseContentImage (m : ChatMessage) : ChatMessage :=
  { m with content := [], image := none }

/-- Messages that agree on everything except (possibly) their content. -/
def sameExceptContent (m n : ChatMessage) : Bool :=
  m.id == n.id && (m.role == n.role && m.image == n.image)

/-- The mutation allowed by C6 between two consecutive `messages` states of
one turn: all but the last message unchanged, and the last message changed in
its content only. -/
def contentOnlyUpdate (old new : List ChatMessage) : Bool :=
  (old.dropLast == new.dropLast) &&
    (match old.getLast?, new.getLast? with
     | some m, some n => sameExceptContent m n
     | _, _ => false)

theorem map_guard_of_fresh {mid : Str} {f : ChatMessage → ChatMessage}
    (hf : ∀ m : ChatMessage, (m.id == mid) = false → f m = m) :
    ∀ {l : List ChatMessage}, hasId mid l = false → l.map f = l := by
  intro l h
  induction l with
  | nil => rfl
  | cons m ms ih =>
    rw [hasId_cons, Bool.or_eq_false_iff] at h
    rw [List.map_cons, hf m h.1, ih h.2]

theorem setContent_chatM1 (s : VA.AppState) (userMessage : Str)
    (image : Option Image) (uid mid t : Str)
    (hfresh : hasId mid s.messages = false) (huid : (uid == mid) = false) :
    setContent mid t (chatM1 s userMessage image uid mid)
      = s.messages ++ [⟨uid, Role.user, userMessage, image⟩,
          ⟨mid, Role.model, t, none⟩] := by
  unfold chatM1
  rw [setContent_append, setContent_of_fresh hfresh, setContent_cons,
    if_neg (by simp [huid]), setContent_cons, if_pos (by simp), setContent_nil]

theorem setContent_imageM1 (s : VA.AppState) (prompt uid mid t : Str)
    (hfresh : hasId mid s.messages = false) (huid : (uid == mid) = false) :
    setContent mid t (imageM1 s prompt uid mid)
      = s.messages ++ [⟨uid, Role.user, strOf "/imagine " ++ prompt, none⟩,
          ⟨mid, Role.model, t, none⟩] := by
  unfold imageM1
  rw [setContent_append, setContent_of_fresh hfresh, setContent_cons,
    if_neg (by simp [huid]), setContent_cons, if_pos (by simp), setContent_nil]

theorem imageMap_imageM1 (s : VA.AppState) (prompt uid mid : Str) (img : Image)
    (hfresh : hasId mid s.messages = false) (huid : (uid == mid) = false) :
    (imageM1 s prompt uid mid).map (fun m => if m.id == mid then
        { m with content := [], image := some img } else m)
      = s.messages ++ [⟨uid, Role.user, strOf "/imagine " ++ prompt, none⟩,
          ⟨mid, Role.model, [], some img⟩] := by
  unfold imageM1
  rw [List.map_append,
    map_guard_of_fresh (fun m hm => by rw [if_neg (by simp [hm])]) hfresh,
    List.map_cons, if_neg (by simp [huid]), List.map_cons, if_pos (by simp),
    List.map_nil]

theorem dropLast_two {l : List ChatMessage} {a b : ChatMessage} :
    (l ++ [a, b]).dropLast = l ++ [a] := by
  rw [show l ++ [a, b] = (l ++ [a]) ++ [b] by simp]
  exact List.dropLast_concat

theorem getLast?_two {l : List ChatMessage} {a b : ChatMessage} :
    (l ++ [a, b]).getLast? = some b := by
  rw [show l ++ [a, b] = (l ++ [a]) ++ [b] by simp]
  exact List.getLast?_concat _

end ClaimC6Defs

section ClaimC6

/-- **C6 counterexample.**  A successful image-generation turn (submitted via
`/imagine`) performs an in-place update of the most recent model message that
changes its *image payload*, not (only) its content: between the two trace
states of the turn, everything before the last message is unchanged, but the
last message gains an image, so the update is not a content-only mutation as
the claim requires. -/
theorem c6_counterexample :
    contentOnlyUpdate
      ((VA.handleImageGeneration (strOf "a red cube") (strOf "c") (strOf "u")
          (strOf "m") (VA.ImageOutcome.found ⟨strOf "IMGDATA", strOf "image/png"⟩)
          ⟨[], false, none, true⟩).trace.getD 0 [])
      ((VA.handleImageGeneration (strOf "a red cube") (strOf "c") (strOf "u")
          (strOf "m") (VA.ImageOutcome.found ⟨strOf "IMGDATA", strOf "image/png"⟩)
          ⟨[], false, none, true⟩).trace.getD 1 []) = false
  ∧ ((VA.handleImageGeneration (strOf "a red cube") (strOf "c") (strOf "u")
          (strOf "m") (VA.ImageOutcome.found ⟨strOf "IMGDATA", strOf "image/png"⟩)
          ⟨[], false, none, true⟩).trace.getD 0 []).dropLast
      = ((VA.handleImageGeneration (strOf "a red cube") (strOf "c") (strOf "u")
          (strOf "m") (VA.ImageOutcome.found ⟨strOf "IMGDATA", strOf "image/png"⟩)
          ⟨[], false, none, true⟩).trace.getD 1 []).dropLast
  ∧ ((VA.handleImageGeneration (strOf "a red cube") (strOf "c") (strOf "u")
          (strOf "m") (VA.ImageOutcome.found ⟨strOf "IMGDATA", strOf "image/png"⟩)
          ⟨[], false, none, true⟩).trace.getD 1 []).getLast?.map (fun m => m.image)
      = some (some ⟨strOf "IMGDATA", strOf "image/png"⟩) := by
  refine ⟨by decide, by decide, by decide⟩

/-- **C6 (amended).**  A session's message list is append-only under submitted
turns: every intermediate and final state of a turn extends the previous list
with the turn's user message followed by one model message, and the only
in-place mutations target that most recent model message — its content during
streaming or on error, and additionally its image payload when an
image-generation turn succeeds. -/
theorem c6_append_only
    (s : VA.AppState) (userMessage : Str) (image : Option Image)
    (ncid uid mid : Str) (co : VA.ChatOutcome) (io : VA.ImageOutcome)
    (prompt : Str)
    (hroute : VA.isImagineCommand userMessage = false)
    (hready : s.chatReady = true) (hidle : s.isLoading = false)
    (hne : userMessage.isEmpty = false)
    (htrim : (jsTrim userMessage).isEmpty = false)
    (hfresh : hasId mid s.messages = false)
    (huid : (uid == mid) = false)
    (hprompt : prompt.isEmpty = false) :
    (∀ ms ∈ (VA.handleSendMessage userMessage image ncid uid mid io co s).trace,
        ms.dropLast = s.messages ++ [⟨uid, Role.user, userMessage, image⟩]
      ∧ ms.getLast?.map eraseContent = some ⟨mid, Role.model, [], none⟩)
  ∧ (VA.handleSendMessage userMessage image ncid uid mid io co s).state.messages
      ∈ (VA.handleSendMessage userMessage image ncid uid mid io co s).trace
  ∧ (∀ ms ∈ (VA.handleImageGeneration prompt ncid uid mid io s).trace,
        ms.dropLast = s.messages
          ++ [⟨uid, Role.user, strOf "/imagine " ++ prompt, none⟩]
      ∧ ms.getLast?.map eraseContentImage = some ⟨mid, Role.model, [], none⟩)
  ∧ (VA.handleImageGeneration prompt ncid uid mid io s).state.messages
      ∈ (VA.handleImageGeneration prompt ncid uid mid io s).trace := by
  have hm1 : chatM1 s userMessage image uid mid
      = (s.messages ++ [⟨uid, Role.user, userMessage, image⟩])
        ++ [⟨mid, Role.model, [], none⟩] := by
    unfold chatM1
    simp
  refine ⟨?_, ?_, ?_, ?_⟩
  · intro ms hms
    cases co with
    | streamed chunks =>
      rw [handleSendMessage_streamed_eq s userMessage image ncid uid mid io chunks
        hroute hready hidle hne htrim] at hms
      dsimp only at hms
      rcases List.mem_cons.mp hms with h | h
      · subst h
        constructor
        · unfold chatM1
          exact dropLast_two
        · unfold chatM1
          rw [getLast?_two]
          rfl
      · rcases streamSteps_mem_shape mid chunks [] _ ms h with ⟨t, ht⟩
        subst ht
        rw [setContent_chatM1 s userMessage image uid mid t hfresh huid]
        constructor
        · exact dropLast_two
        · rw [getLast?_two]
          rfl
    | thrown msg =>
      rw [handleSendMessage_thrown_eq s userMessage image ncid uid mid io msg
        hroute hready hidle hne htrim] at hms
      dsimp only at hms
      rcases List.mem_cons.mp hms with h | h
      · subst h
        constructor
        · unfold chatM1
          exact dropLast_two
        · unfold chatM1
          rw [getLast?_two]
          rfl
      · rcases List.mem_cons.mp h with h2 | h2
        · subst h2
          rw [setContent_chatM1 s userMessage image uid mid _ hfresh huid]
          constructor
          · exact dropLast_two
          · rw [getLast?_two]
            rfl
        · simp at h2
  · cases co with
    | streamed chunks =>
      rw [handleSendMessage_streamed_eq s userMessage image ncid uid mid io chunks
        hroute hready hidle hne htrim]
      dsimp only
      rcases getLastD_mem_or (VA.streamSteps mid []
          (chatM1 s userMessage image uid mid) chunks)
          (chatM1 s userMessage image uid mid) with h | h
      · rw [h]
        exact List.mem_cons_self _ _
      · exact List.mem_cons_of_mem _ h
    | thrown msg =>
      rw [handleSendMessage_thrown_eq s userMessage image ncid uid mid io msg
        hroute hready hidle hne htrim]
      dsimp only
      exact List.mem_cons_of_mem _ (List.mem_cons_self _ _)
  · intro ms hms
    rw [handleImageGeneration_eq s prompt ncid uid mid io hprompt hidle] at hms
    dsimp only at hms
    rcases List.mem_cons.mp hms with h | h
    · subst h
      constructor
      · unfold imageM1
        exact dropLast_two
      · unfold imageM1
        rw [getLast?_two]
        rfl
    · rcases List.mem_cons.mp h with h2 | h2
      · subst h2
        cases io with
        | found img =>
          dsimp only
          rw [imageMap_imageM1 s prompt uid mid img hfresh huid]
          constructor
          · exact dropLast_two
          · rw [getLast?_two]
            rfl
        | missing =>
          dsimp only
          rw [setContent_imageM1 s prompt uid mid _ hfresh huid]
          constructor
          · exact dropLast_two
          · rw [getLast?_two]
            rfl
        | thrown msg =>
          dsimp only
          rw [setContent_imageM1 s prompt uid mid _ hfresh huid]
          constructor
          · exact dropLast_two
          · rw [getLast?_two]
            rfl
      · simp at h2
  · rw [handleImageGeneration_eq s prompt ncid uid mid io hprompt hidle]
    dsimp only
    exact List.mem_cons_of_mem _ (List.mem_cons_self _ _)

/-- Witness for C6 at a concrete two-chunk streamed turn: the state after the
first chunk keeps the prior messages and user message intact and only the
placeholder's content differs. -/
theorem c6_append_only_witness :
    ((VA.handleSendMessage (strOf "Hi") none (strOf "c") (strOf "u") (strOf "m")
        VA.ImageOutcome.missing (VA.ChatOutcome.streamed [strOf "He", strOf "y"])
        ⟨[], false, none, true⟩).trace.getD 1 []).dropLast
      = [⟨strOf "u", Role.user, strOf "Hi", none⟩]
  ∧ ((VA.handleSendMessage (strOf "Hi") none (strOf "c") (strOf "u") (strOf "m")
        VA.ImageOutcome.missing (VA.ChatOutcome.streamed [strOf "He", strOf "y"])
        ⟨[], false, none, true⟩).trace.getD 1 []).getLast?.map eraseContent
      = some ⟨strOf "m", Role.model, [], none⟩ := by
  have h := c6_append_only ⟨[], false, none, true⟩ (strOf "Hi") none
    (strOf "c") (strOf "u") (strOf "m")
    (VA.ChatOutcome.streamed [strOf "He", strOf "y"]) VA.ImageOutcome.missing
    (strOf "p") (by decide) rfl rfl (by decide) (by decide) (by decide)
    (by decide) (by decide)
  have h2 := h.1 _ (by decide :
    ((VA.handleSendMessage (strOf "Hi") none (strOf "c") (strOf "u") (strOf "m")
        VA.ImageOutcome.missing (VA.ChatOutcome.streamed [strOf "He", strOf "y"])
        ⟨[], false, none, true⟩).trace.getD 1 [])
      ∈ (VA.handleSendMessage (strOf "Hi") none (strOf "c") (strOf "u") (strOf "m")
        VA.ImageOutcome.missing (VA.ChatOutcome.streamed [strOf "He", strOf "y"])
        ⟨[], false, none, true⟩).trace)
  exact ⟨h2.1.trans (by decide), h2.2⟩

end ClaimC6

section ClaimC9

theorem idsOf_append (l1 l2 : List ChatMessage) :
    idsOf (l1 ++ l2) = idsOf l1 ++ idsOf l2 := List.map_append _ _ _

theorem idsOf_map_of_preserves {f : ChatMessage → ChatMessage}
    (hf : ∀ m, (f m).id = m.id) (l : List ChatMessage) :
    idsOf (l.map f) = idsOf l := by
  unfold idsOf
  rw [List.map_map]
  exact List.map_congr_left (fun m _ => hf m)

/-- Any variant A turn either leaves the message list's ids unchanged
(rejected submission) or appends exactly the two fresh ids. -/
theorem idsOf_handleSendMessage
    (s : VA.AppState) (userMessage : Str) (image : Option Image)
    (ncid uid mid : Str) (io : VA.ImageOutcome) (co : VA.ChatOutcome) :
    idsOf (VA.handleSendMessage userMessage image ncid uid mid io co s).state.messages
        = idsOf s.messages
    ∨ idsOf (VA.handleSendMessage userMessage image ncid uid mid io co s).state.messages
        = idsOf s.messages ++ [uid, mid] := by
  unfold VA.handleSendMessage VA.handleImageGeneration
  split
  · -- image-generation route
    split
    · exact Or.inl rfl
    · right
      dsimp only
      cases io with
      | found img =>
        dsimp only
        have hf : ∀ m : ChatMessage,
            ((if (m.id == mid) = true then
                { m with content := [], image := some img } else m) : ChatMessage).id
              = m.id := by
          intro m
          by_cases hm : (m.id == mid) = true
          · rw [if_pos hm]
          · rw [if_neg hm]
        rw [idsOf_map_of_preserves hf, idsOf_append]
        rfl
      | missing =>
        dsimp only
        rw [idsOf_setContent, idsOf_append]
        rfl
      | thrown msg =>
        dsimp only
        rw [idsOf_setContent, idsOf_append]
        rfl
  · -- chat route
    split
    · exact Or.inl rfl
    · dsimp only
      split
      · -- userMessage empty: effective message decided by the image presence
        split
        · split
          · exact Or.inl rfl
          · cases co with
            | streamed chunks =>
              right
              dsimp only
              rcases getLastD_mem_or (VA.streamSteps mid [] _ chunks) _ with h | h
              · rw [h, idsOf_append]
                rfl
              · rcases streamSteps_mem_shape mid chunks [] _ _ h with ⟨t, ht⟩
                rw [ht, idsOf_setContent, idsOf_append]
                rfl
            | thrown msg =>
              right
              dsimp only
              rw [idsOf_setContent, idsOf_append]
              rfl
        · split
          · exact Or.inl rfl
          · cases co with
            | streamed chunks =>
              right
              dsimp only
              rcases getLastD_mem_or (VA.streamSteps mid [] _ chunks) _ with h | h
              · rw [h, idsOf_append]
                rfl
              · rcases streamSteps_mem_shape mid chunks [] _ _ h with ⟨t, ht⟩
                rw [ht, idsOf_setContent, idsOf_append]
                rfl
            | thrown msg =>
              right
              dsimp only
              rw [idsOf_setContent, idsOf_append]
              rfl
      · -- userMessage non-empty
        split
        · exact Or.inl rfl
        · cases co with
          | streamed chunks =>
            right
            dsimp only
            rcases getLastD_mem_or (VA.streamSteps mid [] _ chunks) _ with h | h
            · rw [h, idsOf_append]
              rfl
            · rcases streamSteps_mem_shape mid chunks [] _ _ h with ⟨t, ht⟩
              rw [ht, idsOf_setContent, idsOf_append]
              rfl
          | thrown msg =>
            right
            dsimp only
            rw [idsOf_setContent, idsOf_append]
            rfl

/-- **C9 counterexample.**  With variant B's timestamp-based ids, two turns of
the same session one millisecond apart collide: the first turn errors at
`Date.now() = 1000` producing a model message with id `"1001"`, and a second
turn submitted at `Date.now() = 1001` creates a user message with the same id
`"1001"`, so the session's message ids are not unique. -/
theorem c9_counterexample :
    ¬ (idsOf (VB.handleSendMessage ⟨fun _ => true⟩ (strOf "Hello again") none
        1001 1002 (VB.SendOutcome.ok (strOf "resp"))
        (VB.handleSendMessage ⟨fun _ => true⟩ (strOf "Hi") none 1000 1000
          VB.SendOutcome.thrown ⟨[], false, none, [], none, true⟩)).messages).Nodup := by
  decide

/-- **C9 (amended).**  Message ids are unique within a session's lifetime
provided the id source never repeats: in the UUID variant, whenever the ids
supplied to a turn are fresh and distinct, every turn (in every generation
mode, accepted or rejected, settled or errored) preserves uniqueness of the
session's message ids; the timestamp-based variant does not guarantee this. -/
theorem c9_id_uniqueness
    (s : VA.AppState) (userMessage : Str) (image : Option Image)
    (ncid uid mid : Str) (io : VA.ImageOutcome) (co : VA.ChatOutcome)
    (hnodup : (idsOf s.messages).Nodup)
    (hu : uid ∉ idsOf s.messages) (hmidm : mid ∉ idsOf s.messages)
    (hneq : uid ≠ mid) :
    (idsOf (VA.handleSendMessage userMessage image ncid uid mid io co s).state.messages).Nodup := by
  rcases idsOf_handleSendMessage s userMessage image ncid uid mid io co with h | h
  · rw [h]
    exact hnodup
  · rw [h, List.nodup_append]
    refine ⟨hnodup, by simp [hneq], ?_⟩
    intro a ha hb
    simp only [List.mem_cons, List.mem_singleton, List.not_mem_nil, or_false] at hb
    rcases hb with rfl | rfl
    · exact hu ha
    · exact hmidm ha

/-- Witness for C9: a concrete turn with fresh distinct ids keeps the id list
duplicate-free. -/
theorem c9_id_uniqueness_witness :
    (idsOf (VA.handleSendMessage (strOf "Hi") none (strOf "c") (strOf "u")
        (strOf "m") VA.ImageOutcome.missing
        (VA.ChatOutcome.streamed [strOf "x"])
        ⟨[], false, none, true⟩).state.messages).Nodup := by
  exact c9_id_uniqueness ⟨[], false, none, true⟩ (strOf "Hi") none
    (strOf "c") (strOf "u") (strOf "m") VA.ImageOutcome.missing
    (VA.ChatOutcome.streamed [strOf "x"])
    (by decide) (by decide) (by decide) (by decide)

end ClaimC9

section ClaimC4

/-- **C4 counterexample.**  A capacity failure while saving a single-session
collection evicts nothing and is not retried: `saveChatHistory` only runs the
evict-and-retry path when the upserted collection holds more than one
session.  Here the write of the one-session collection fails, exactly one
`setItem` attempt is made, and storage is left unchanged — contradicting
"exactly the single oldest session is evicted (FIFO) and the write is retried
exactly once". -/
theorem c4_counterexample :
    VB.saveChatHistory ⟨fun _ => false⟩ (strOf "c1")
      [⟨strOf "m1", Role.user, strOf "hello", none⟩] [] none
      = ([⟨strOf "c1", strOf "hello",
          [⟨strOf "m1", Role.user, strOf "hello", none⟩]⟩], none, 1) := by
  decide

/-- **C4 (amended).**  When upserting a session and the persistence write
fails due to capacity: if the upserted collection holds more than one
session, exactly the single oldest session (the head, FIFO) is removed —
from the retried write and from the returned in-memory collection alike —
and the write is retried exactly once (two `setItem` attempts), a retry
failure leaving storage unchanged and surfacing no error; if the collection
holds at most one session, the write is abandoned with no eviction and no
retry.  In both cases the in-memory upsert result is returned. -/
theorem c4_quota_eviction (sm : StorageModel) (chatId : Str)
    (msgs : List ChatMessage) (prev : List ChatHistoryItem) (st : Option Stored)
    (hfail : sm.fits (VB.upsertSession chatId (VB.titleOf msgs) msgs prev)
      = false) :
    (1 < (VB.upsertSession chatId (VB.titleOf msgs) msgs prev).length →
      VB.saveChatHistory sm chatId msgs prev st
        = ((VB.upsertSession chatId (VB.titleOf msgs) msgs prev).drop 1,
           (if sm.fits ((VB.upsertSession chatId (VB.titleOf msgs) msgs prev).drop 1)
            then some (Stored.good
              ((VB.upsertSession chatId (VB.titleOf msgs) msgs prev).drop 1))
            else st),
           2))
  ∧ ((VB.upsertSession chatId (VB.titleOf msgs) msgs prev).length ≤ 1 →
      VB.saveChatHistory sm chatId msgs prev st
        = (VB.upsertSession chatId (VB.titleOf msgs) msgs prev, st, 1)) := by
  constructor
  · intro hlen
    unfold VB.saveChatHistory
    dsimp only
    rw [hfail, if_neg (by simp), if_pos hlen]
    by_cases hfits2 : sm.fits
        ((VB.upsertSession chatId (VB.titleOf msgs) msgs prev).drop 1) = true
    · rw [hfits2, if_pos rfl, if_pos rfl]
    · rw [if_neg (by simpa using hfits2), if_neg (by simpa using hfits2)]
  · intro hlen
    unfold VB.saveChatHistory
    dsimp only
    rw [hfail, if_neg (by simp), if_neg (by omega)]

/-- Witness for C4: with two sessions and a capacity oracle that only fits a
single session, the oldest is evicted, the retry succeeds, and exactly two
write attempts are made. -/
theorem c4_quota_eviction_witness :
    VB.saveChatHistory ⟨fun h => h.length == 1⟩ (strOf "new")
      [⟨strOf "m1", Role.user, strOf "x", none⟩]
      [⟨strOf "old", strOf "t", []⟩] none
      = ([⟨strOf "new", strOf "x", [⟨strOf "m1", Role.user, strOf "x", none⟩]⟩],
         some (Stored.good [⟨strOf "new", strOf "x",
           [⟨strOf "m1", Role.user, strOf "x", none⟩]⟩]),
         2) := by
  have h := (c4_quota_eviction ⟨fun h => h.length == 1⟩ (strOf "new")
    [⟨strOf "m1", Role.user, strOf "x", none⟩]
    [⟨strOf "old", strOf "t", []⟩] none (by decide)).1 (by decide)
  exact h.trans (by decide)

end ClaimC4

section ClaimC5

/-- **C5 counterexample.**  Variant B's `handleSendMessage` has no loading
guard: invoked while the global loading flag is set (reachable through the
welcome-screen shortcut buttons, which reappear if the user clicks "New Chat"
while a turn is in flight), it is not rejected — it appends messages and runs
a full second turn instead of causing no state change. -/
theorem c5_counterexample :
    (VB.handleSendMessage ⟨fun _ => true⟩ (strOf "Hi") none 5 6
        (VB.SendOutcome.ok (strOf "ok"))
        ⟨[], true, none, [], none, true⟩).messages
      = [⟨natToStr 5, Role.user, strOf "Hi", none⟩,
         ⟨natToStr 7, Role.model, strOf "ok", none⟩] := by
  decide

/-- **C5 (amended).**  At most one turn is in flight as far as each guard
reaches: in variant A every submission attempted while the loading flag is
set is rejected with no state change (both the chat path and the `/imagine`
path guard on `isLoading`); in variant B the rejection happens in the
`ChatInput` submit handler, which dispatches nothing while the flag is set —
variant B's controller-level `handleSendMessage` itself has no such guard. -/
theorem c5_single_flight
    (s : VA.AppState) (userMessage : Str) (image : Option Image)
    (ncid uid mid : Str) (io : VA.ImageOutcome) (co : VA.ChatOutcome)
    (mode : VB.Mode) (value : Str) (imgB : Option Image)
    (hload : s.isLoading = true) :
    VA.handleSendMessage userMessage image ncid uid mid io co s
      = ⟨s, []⟩
  ∧ VB.handleSubmit mode value imgB true = none := by
  constructor
  · unfold VA.handleSendMessage
    cases VA.classifySubmission userMessage with
    | toImageGeneration prompt =>
      unfold VA.handleImageGeneration
      dsimp only
      rw [if_pos (by rw [hload, Bool.or_true])]
    | toChat =>
      dsimp only
      rw [if_pos (by rw [hload, Bool.or_true])]
  · unfold VB.handleSubmit
    rw [if_pos rfl]

/-- Witness for C5: a concrete loading-flagged submission is rejected by
variant A's handler and by variant B's input component. -/
theorem c5_single_flight_witness :
    VA.handleSendMessage (strOf "Hi") none (strOf "c") (strOf "u") (strOf "m")
        VA.ImageOutcome.missing (VA.ChatOutcome.streamed [strOf "x"])
        ⟨[⟨strOf "u0", Role.user, strOf "prev", none⟩], true, some (strOf "c0"), true⟩
      = ⟨⟨[⟨strOf "u0", Role.user, strOf "prev", none⟩], true, some (strOf "c0"), true⟩, []⟩
  ∧ VB.handleSubmit VB.Mode.chat (strOf "Hi") none true = none := by
  exact c5_single_flight
    ⟨[⟨strOf "u0", Role.user, strOf "prev", none⟩], true, some (strOf "c0"), true⟩
    (strOf "Hi") none (strOf "c") (strOf "u") (strOf "m")
    VA.ImageOutcome.missing (VA.ChatOutcome.streamed [strOf "x"])
    VB.Mode.chat (strOf "Hi") none rfl

end ClaimC5

section ClaimC10

theorem map_eq_singleton {f : Char → Char} {l : List Char} {x : Char}
    (h : l.map f = [x]) : ∃ a, l = [a] ∧ f a = x := by
  cases l with
  | nil => simp at h
  | cons a t =>
    rw [List.map_cons] at h
    injection h with h1 h2
    rw [List.map_eq_nil_iff] at h2
    exact ⟨a, by rw [h2], h1⟩

/-- **C10.**  The `/imagine ` classification is case-insensitive on the
command prefix: any submission `p ++ rest` whose first nine characters
lowercase to `"/imagine "` (and whose remainder contains a non-whitespace
character) is routed to image generation with the trimmed remainder as
prompt, and the user message recorded for the turn carries the normalized
content `"/imagine " ++ trimmed prompt`, not the raw submitted text. -/
theorem c10_case_insensitive_normalization
    (p rest : Str) (s : VA.AppState) (image : Option Image)
    (ncid uid mid : Str) (io : VA.ImageOutcome) (co : VA.ChatOutcome)
    (hp : jsToLowerCase p = strOf "/imagine ")
    (hrest : rest.any (fun c => !isWS c) = true)
    (hidle : s.isLoading = false) :
    VA.classifySubmission (p ++ rest)
      = VA.SubmissionRoute.toImageGeneration (jsTrim rest)
  ∧ (VA.handleSendMessage (p ++ rest) image ncid uid mid io co s).trace.head?
      = some (s.messages
          ++ [⟨uid, Role.user, strOf "/imagine " ++ jsTrim rest, none⟩,
              ⟨mid, Role.model, [], none⟩]) := by
  unfold jsToLowerCase at hp
  obtain ⟨c0, p1, rfl⟩ : ∃ c0 p1, p = c0 :: p1 := by
    cases p with
    | nil => exact absurd hp (by decide)
    | cons a t => exact ⟨a, t, rfl⟩
  have hlen : (c0 :: p1).length = 9 := by
    have := congrArg List.length hp
    rw [List.length_map] at this
    rw [this]
    decide
  have hc0 : c0 = '/' := by
    rw [show strOf "/imagine " = '/' :: strOf "imagine " by decide,
      List.map_cons] at hp
    injection hp with h1 _
    exact jsLowerChar_eq_of_toNat_lt (by decide) h1
  have hdrop : (c0 :: p1).drop 8 = [' '] := by
    have hmd : ((c0 :: p1).drop 8).map jsLowerChar = [' '] := by
      rw [List.map_drop, hp]
      decide
    rcases map_eq_singleton hmd with ⟨a, ha, hfa⟩
    rw [ha, jsLowerChar_eq_of_toNat_lt (by decide) hfa]
  have htrim : jsTrim ((c0 :: p1) ++ rest) = (c0 :: p1) ++ jsTrimEnd rest := by
    subst hc0
    exact jsTrim_append (by decide) hrest
  have hcmd : VA.isImagineCommand ((c0 :: p1) ++ rest) = true := by
    unfold VA.isImagineCommand
    rw [htrim]
    unfold jsToLowerCase
    rw [List.map_append, hp]
    unfold strStartsWith
    rw [List.take_left]
    exact beq_self_eq_true _
  have hprompt : VA.imaginePrompt ((c0 :: p1) ++ rest) = jsTrim rest := by
    unfold VA.imaginePrompt
    rw [List.drop_append_eq_append_drop, hdrop,
      show 8 - (c0 :: p1).length = 0 by omega, List.drop_zero]
    exact jsTrim_cons_ws (by decide)
  have hclassify : VA.classifySubmission ((c0 :: p1) ++ rest)
      = VA.SubmissionRoute.toImageGeneration (jsTrim rest) := by
    unfold VA.classifySubmission
    rw [hcmd, if_pos rfl, hprompt]
  have hne : (jsTrim rest).isEmpty = false := by
    cases hE : (jsTrim rest).isEmpty with
    | false => rfl
    | true => exact absurd (List.isEmpty_iff.mp hE) (jsTrim_ne_nil hrest)
  refine ⟨hclassify, ?_⟩
  unfold VA.handleSendMessage
  rw [hclassify]
  dsimp only
  unfold VA.handleImageGeneration
  rw [if_neg (by rw [hne, hidle]; simp)]
  rfl

/-- Witness for C10 at the uppercase example `"/IMAGINE a red cube"`: it is
classified as image generation with prompt `"a red cube"` and the recorded
user message content is the normalized `"/imagine a red cube"`, which differs
from the raw submitted text. -/
theorem c10_case_insensitive_normalization_witness :
    VA.classifySubmission (strOf "/IMAGINE a red cube")
      = VA.SubmissionRoute.toImageGeneration (strOf "a red cube")
  ∧ (VA.handleSendMessage (strOf "/IMAGINE a red cube") none (strOf "c")
        (strOf "u") (strOf "m") VA.ImageOutcome.missing
        (VA.ChatOutcome.streamed []) ⟨[], false, none, true⟩).trace.head?
      = some [⟨strOf "u", Role.user, strOf "/imagine a red cube", none⟩,
              ⟨strOf "m", Role.model, [], none⟩] := by
  have h := c10_case_insensitive_normalization (strOf "/IMAGINE ")
    (strOf "a red cube") ⟨[], false, none, true⟩ none (strOf "c") (strOf "u")
    (strOf "m") VA.ImageOutcome.missing (VA.ChatOutcome.streamed [])
    (by decide) (by decide) rfl
  have e : strOf "/IMAGINE " ++ strOf "a red cube" = strOf "/IMAGINE a red cube" := by
    decide
  rw [e] at h
  exact ⟨h.1.trans (by decide), h.2.trans (by decide)⟩

end ClaimC10
